import Mathlib

/-!
Shallow embedding of the bond valuation engine from
src/backend/src/bond-calculator/bond-calculator.service.ts.

JavaScript numbers are modelled as rationals.  The payment-date field of a
schedule entry depends on the wall clock (new Date()) and is omitted; no
claim concerns it.  The loop `for (let t = 1; t <= totalPeriods; t++)` over
a possibly fractional bound runs ⌊totalPeriods⌋ iterations, which the
embedding makes explicit through numPeriods.
-/

/-- Input record, from interfaces/bond.interface.ts.  couponFrequency is the
numeric value 1 or 2; validity is a separate predicate. -/
structure BondInput where
  faceValue : ℚ
  annualCouponRate : ℚ
  marketPrice : ℚ
  yearsToMaturity : ℚ
  couponFrequency : ℚ
deriving DecidableEq

/-- The validated input domain enforced by dto/calculate-bond.dto.ts:
positive face value, market price and maturity, maturity at most 100 years,
frequency 1 or 2, coupon rate in [0, 100]. -/
def Valid (input : BondInput) : Prop :=
  0 < input.faceValue ∧ 0 < input.marketPrice ∧ 0 < input.yearsToMaturity ∧
    input.yearsToMaturity ≤ 100 ∧
    (input.couponFrequency = 1 ∨ input.couponFrequency = 2) ∧
    0 ≤ input.annualCouponRate ∧ input.annualCouponRate ≤ 100

instance (input : BondInput) : Decidable (Valid input) := by
  unfold Valid
  infer_instance

/-- calculateCurrentYield: annual coupon divided by market price. -/
def calculateCurrentYield (input : BondInput) : ℚ :=
  input.faceValue * (input.annualCouponRate / 100) / input.marketPrice

/-- The raw totalPeriods value computed in the source:
yearsToMaturity * couponFrequency, with no rounding applied. -/
def totalPeriodsQ (input : BondInput) : ℚ :=
  input.yearsToMaturity * input.couponFrequency

/-- Number of iterations the source loops `for (t = 1; t <= totalPeriods)`
actually perform: the floor of the raw totalPeriods value. -/
def numPeriods (input : BondInput) : ℕ :=
  ⌊totalPeriodsQ input⌋₊

/-- Coupon payment per period: faceValue * (annualCouponRate/100) / couponFrequency. -/
def couponPerPeriod (input : BondInput) : ℚ :=
  input.faceValue * (input.annualCouponRate / 100) / input.couponFrequency

/-- calculatePriceAndDerivative: the loop accumulates, for t = 1..n,
price += C / (1+y)^t and derivative -= t*C / ((1+y)^t * (1+y)); afterwards
the face-value terms are added.  The source uses Math.pow(1+y, totalPeriods)
with the RAW totalPeriods value for those terms; this rational version takes
the integer n and is exact whenever totalPeriods is an integer — the
real-number model priceAndDerivativeR below keeps a fractional exponent
exact. -/
def calculatePriceAndDerivative (yield_ couponPerPeriod faceValue : ℚ)
    (totalPeriods : ℕ) : ℚ × ℚ :=
  ((∑ t ∈ Finset.range totalPeriods, couponPerPeriod / (1 + yield_) ^ (t + 1))
      + faceValue / (1 + yield_) ^ totalPeriods,
    (-(∑ t ∈ Finset.range totalPeriods,
        ((t + 1 : ℚ) * couponPerPeriod) / ((1 + yield_) ^ (t + 1) * (1 + yield_))))
      - (totalPeriods : ℚ) * faceValue / ((1 + yield_) ^ totalPeriods * (1 + yield_)))

/-- The Newton-Raphson loop of calculateYTM, with the remaining iteration
budget as fuel (the source starts with 100).  Each iteration checks
|price - marketPrice| < 1e-10 and breaks, otherwise performs the Newton
update and resets a negative guess to 0.0001. -/
def ytmLoop (couponPerPeriod faceValue marketPrice : ℚ) (totalPeriods : ℕ) :
    ℕ → ℚ → ℚ
  | 0, r => r
  | fuel + 1, r =>
    let pd := calculatePriceAndDerivative r couponPerPeriod faceValue totalPeriods
    let priceDiff := pd.1 - marketPrice
    if |priceDiff| < 1 / 10 ^ 10 then r
    else
      let next := r - priceDiff / pd.2
      ytmLoop couponPerPeriod faceValue marketPrice totalPeriods fuel
        (if next < 0 then 1 / 10000 else next)

/-- calculateYTM: run the Newton loop from the initial guess
currentYield / couponFrequency, then annualize by couponFrequency.  Exact for
integer period counts; at fractional counts the face-value discount exponent
is floored here, and calculateYTMR below models the source exactly. -/
def calculateYTM (input : BondInput) : ℚ :=
  ytmLoop (couponPerPeriod input) input.faceValue input.marketPrice
      (numPeriods input) 100 (calculateCurrentYield input / input.couponFrequency)
    * input.couponFrequency

/-- calculateTotalInterest: annual coupon times years to maturity. -/
def calculateTotalInterest (input : BondInput) : ℚ :=
  input.faceValue * (input.annualCouponRate / 100) * input.yearsToMaturity

/-- Premium / discount / par status. -/
inductive PremiumStatus where
  | premium : PremiumStatus
  | discount : PremiumStatus
  | par : PremiumStatus
deriving DecidableEq

/-- calculatePremiumDiscount: difference = marketPrice - faceValue; par within
tolerance 0.01, else premium when positive, discount when negative. -/
def calculatePremiumDiscount (input : BondInput) : PremiumStatus × ℚ :=
  let difference := input.marketPrice - input.faceValue
  if |difference| < 1 / 100 then (PremiumStatus.par, 0)
  else if 0 < difference then (PremiumStatus.premium, difference)
  else (PremiumStatus.discount, |difference|)

/-- One row of the cash-flow schedule (the wall-clock paymentDate is omitted). -/
structure CashFlowEntry where
  period : ℕ
  couponPayment : ℚ
  cumulativeInterest : ℚ
  remainingPrincipal : ℚ
deriving DecidableEq

/-- Math.round(x * 100) / 100, rounding half away from zero upwards exactly as
JavaScript Math.round does on the nonnegative amounts involved. -/
def round2 (x : ℚ) : ℚ :=
  (round (x * 100) : ℚ) / 100

/-- The schedule loop of generateCashFlowSchedule: the accumulator
cumulativeInterest grows by the unrounded couponPerPeriod each period and the
stored fields are rounded at generation time.  The source compares
`period === totalPeriods` against the RAW (possibly fractional) totalPeriods
value, so the comparison is on rationals here. -/
def scheduleFrom (couponPerPeriod faceValue : ℚ) (totalPeriods : ℚ) :
    ℕ → ℚ → ℕ → List CashFlowEntry
  | _, _, 0 => []
  | period, cumulative, fuel + 1 =>
    let cumulative2 := cumulative + couponPerPeriod
    { period := period
      couponPayment := round2 couponPerPeriod
      cumulativeInterest := round2 cumulative2
      remainingPrincipal := if (period : ℚ) = totalPeriods then 0 else faceValue }
      :: scheduleFrom couponPerPeriod faceValue totalPeriods (period + 1) cumulative2 fuel

/-- generateCashFlowSchedule: the loop runs ⌊totalPeriods⌋ times, with a
zero-initialised running interest accumulator. -/
def generateCashFlowSchedule (input : BondInput) : List CashFlowEntry :=
  scheduleFrom (couponPerPeriod input) input.faceValue (totalPeriodsQ input) 1 0
    (numPeriods input)

/-- Output record assembled by calculateBond. -/
structure BondCalculationResult where
  currentYield : ℚ
  yieldToMaturity : ℚ
  totalInterestEarned : ℚ
  premiumDiscount : PremiumStatus
  premiumDiscountAmount : ℚ
  cashFlowSchedule : List CashFlowEntry
deriving DecidableEq

/-- calculateBond: orchestrates all bond metrics. -/
def calculateBond (input : BondInput) : BondCalculationResult :=
  { currentYield := calculateCurrentYield input
    yieldToMaturity := calculateYTM input
    totalInterestEarned := calculateTotalInterest input
    premiumDiscount := (calculatePremiumDiscount input).1
    premiumDiscountAmount := (calculatePremiumDiscount input).2
    cashFlowSchedule := generateCashFlowSchedule input }

/-! ## Spec-side algorithm for the refinement claim

The following definitions restate, word for word, the algorithm described in
the specification of calculateYTM: price and derivative as closed sums over
t = 1..n, the Newton loop with tolerance 1e-10, the 0.0001 reset, and final
annualization.  They are compared with the source embedding above. -/

/-- Stated from the spec: P(r) = sum over t = 1..n of C/(1+r)^t + FV/(1+r)^n. -/
def specPrice (couponPerPeriod faceValue : ℚ) (n : ℕ) (r : ℚ) : ℚ :=
  (∑ t ∈ Finset.Icc 1 n, couponPerPeriod / (1 + r) ^ t) + faceValue / (1 + r) ^ n

/-- Stated from the spec: derivative of the price,
-sum over t = 1..n of t*C/(1+r)^(t+1) - n*FV/(1+r)^(n+1). -/
def specDerivative (couponPerPeriod faceValue : ℚ) (n : ℕ) (r : ℚ) : ℚ :=
  -(∑ t ∈ Finset.Icc 1 n, (t : ℚ) * couponPerPeriod / (1 + r) ^ (t + 1))
    - (n : ℚ) * faceValue / (1 + r) ^ (n + 1)

/-- Stated from the spec: the Newton iteration with convergence test
|P(r) - marketPrice| < 1e-10, update r - (P(r)-marketPrice)/deriv, and reset
of a negative update to 0.0001. -/
def specNewton (couponPerPeriod faceValue marketPrice : ℚ) (n : ℕ) : ℕ → ℚ → ℚ
  | 0, r => r
  | fuel + 1, r =>
    if |specPrice couponPerPeriod faceValue n r - marketPrice| < 1 / 10 ^ 10 then r
    else
      let next := r - (specPrice couponPerPeriod faceValue n r - marketPrice)
          / specDerivative couponPerPeriod faceValue n r
      specNewton couponPerPeriod faceValue marketPrice n fuel
        (if next < 0 then 1 / 10000 else next)

/-- Stated from the spec: at most 100 iterations from the initial guess
(faceValue*annualCouponRate/100/marketPrice)/couponFrequency, with per-period
coupon faceValue*(annualCouponRate/100)/couponFrequency, returning the final
guess multiplied by couponFrequency. -/
def specYTM (faceValue annualCouponRate marketPrice couponFrequency : ℚ) (n : ℕ) : ℚ :=
  specNewton (faceValue * (annualCouponRate / 100) / couponFrequency) faceValue
      marketPrice n 100
      (faceValue * annualCouponRate / 100 / marketPrice / couponFrequency)
    * couponFrequency

lemma specPrice_eq (C FV : ℚ) (n : ℕ) (r : ℚ) :
    specPrice C FV n r = (calculatePriceAndDerivative r C FV n).1 := by
  unfold specPrice calculatePriceAndDerivative
  dsimp only
  rw [← Nat.Ico_succ_right, Finset.sum_Ico_eq_sum_range]
  congr 1
  exact Finset.sum_congr rfl fun i _ => by rw [Nat.add_comm]

lemma specDerivative_eq (C FV : ℚ) (n : ℕ) (r : ℚ) :
    specDerivative C FV n r = (calculatePriceAndDerivative r C FV n).2 := by
  unfold specDerivative calculatePriceAndDerivative
  dsimp only
  rw [← Nat.Ico_succ_right, Finset.sum_Ico_eq_sum_range]
  have htail : (n : ℚ) * FV / (1 + r) ^ (n + 1)
      = (n : ℚ) * FV / ((1 + r) ^ n * (1 + r)) := by
    rw [pow_succ]
  rw [htail]
  congr 2
  refine Finset.sum_congr rfl fun i _ => ?_
  have h1 : 1 + i = i + 1 := Nat.add_comm 1 i
  rw [h1, ← pow_succ]
  push_cast
  ring

lemma specNewton_eq (C FV p : ℚ) (n : ℕ) :
    ∀ fuel r, specNewton C FV p n fuel r = ytmLoop C FV p n fuel r
  | 0, _ => rfl
  | fuel + 1, r => by
    rw [specNewton, ytmLoop]
    simp only [specPrice_eq, specDerivative_eq]
    split
    · rfl
    · exact specNewton_eq C FV p n fuel _

/-! ## Real-number model of the fractional-exponent pricing

The source discounts the face value with Math.pow(1 + r, totalPeriods) using
the RAW totalPeriods value, so at fractional period counts that exponent is
fractional.  The rational embedding above can only floor the exponent; the
following real-number model keeps it exact (real exponentiation) and mirrors
the source line for line otherwise.  On every integer period count the two
models coincide (ytmLoopR_cast, calculateYTMR_integer_periods below); the
real model is what settles the par-bond claim on fractional inputs. -/

/-- calculatePriceAndDerivative over the reals, with the face-value terms
discounted by the raw (possibly fractional) totalPeriods exponent exactly as
Math.pow does; the coupon loop still runs m = ⌊totalPeriods⌋ times. -/
noncomputable def priceAndDerivativeR (yield_ couponPerPeriod faceValue : ℝ)
    (totalPeriods : ℝ) (m : ℕ) : ℝ × ℝ :=
  ((∑ t ∈ Finset.range m, couponPerPeriod / (1 + yield_) ^ (t + 1))
      + faceValue / (1 + yield_) ^ totalPeriods,
    (-(∑ t ∈ Finset.range m,
        ((t + 1 : ℝ) * couponPerPeriod) / ((1 + yield_) ^ (t + 1) * (1 + yield_))))
      - totalPeriods * faceValue / ((1 + yield_) ^ totalPeriods * (1 + yield_)))

/-- The Newton loop of calculateYTM over the reals. -/
noncomputable def ytmLoopR (couponPerPeriod faceValue marketPrice : ℝ)
    (totalPeriods : ℝ) (m : ℕ) : ℕ → ℝ → ℝ
  | 0, r => r
  | fuel + 1, r =>
    let pd := priceAndDerivativeR r couponPerPeriod faceValue totalPeriods m
    let priceDiff := pd.1 - marketPrice
    if |priceDiff| < 1 / 10 ^ 10 then r
    else
      let next := r - priceDiff / pd.2
      ytmLoopR couponPerPeriod faceValue marketPrice totalPeriods m fuel
        (if next < 0 then 1 / 10000 else next)

/-- calculateYTM over the reals: identical to calculateYTM except that the
face-value discount exponent is the raw totalPeriods value. -/
noncomputable def calculateYTMR (input : BondInput) : ℝ :=
  ytmLoopR ((couponPerPeriod input : ℚ) : ℝ) ((input.faceValue : ℚ) : ℝ)
      ((input.marketPrice : ℚ) : ℝ) ((totalPeriodsQ input : ℚ) : ℝ)
      (numPeriods input) 100
      ((calculateCurrentYield input / input.couponFrequency : ℚ) : ℝ)
    * ((input.couponFrequency : ℚ) : ℝ)

lemma priceAndDerivativeR_cast (r C FV : ℚ) (n : ℕ) :
    priceAndDerivativeR (r : ℝ) (C : ℝ) (FV : ℝ) ((n : ℕ) : ℝ) n
      = (((calculatePriceAndDerivative r C FV n).1 : ℝ),
          ((calculatePriceAndDerivative r C FV n).2 : ℝ)) := by
  unfold priceAndDerivativeR calculatePriceAndDerivative
  dsimp only
  simp only [Real.rpow_natCast]
  rw [Prod.mk.injEq]
  constructor
  · push_cast
    ring
  · push_cast
    ring

lemma ytmLoopR_cast (C FV p : ℚ) (n : ℕ) :
    ∀ fuel (r : ℚ),
      ytmLoopR (C : ℝ) (FV : ℝ) (p : ℝ) ((n : ℕ) : ℝ) n fuel (r : ℝ)
        = ((ytmLoop C FV p n fuel r : ℚ) : ℝ)
  | 0, _ => rfl
  | fuel + 1, r => by
    rw [ytmLoopR, ytmLoop]
    dsimp only
    rw [priceAndDerivativeR_cast]
    dsimp only
    have hcond : (|((calculatePriceAndDerivative r C FV n).1 : ℝ) - (p : ℝ)|
          < 1 / 10 ^ 10)
        ↔ |(calculatePriceAndDerivative r C FV n).1 - p| < 1 / 10 ^ 10 := by
      rw [show ((1 : ℝ) / 10 ^ 10) = (((1 / 10 ^ 10 : ℚ)) : ℝ) by norm_num,
        ← Rat.cast_sub, ← Rat.cast_abs, Rat.cast_lt]
    by_cases hc : |(calculatePriceAndDerivative r C FV n).1 - p| < 1 / 10 ^ 10
    · rw [if_pos hc, if_pos (hcond.mpr hc)]
    · rw [if_neg hc, if_neg (fun h => hc (hcond.mp h))]
      have hnext : ((r : ℝ) - (((calculatePriceAndDerivative r C FV n).1 : ℝ) - (p : ℝ))
            / ((calculatePriceAndDerivative r C FV n).2 : ℝ))
          = (((r - ((calculatePriceAndDerivative r C FV n).1 - p)
            / (calculatePriceAndDerivative r C FV n).2 : ℚ)) : ℝ) := by
        push_cast
        ring
      rw [hnext]
      have hneg : ((((r - ((calculatePriceAndDerivative r C FV n).1 - p)
            / (calculatePriceAndDerivative r C FV n).2 : ℚ)) : ℝ) < 0)
          ↔ (r - ((calculatePriceAndDerivative r C FV n).1 - p)
            / (calculatePriceAndDerivative r C FV n).2 < 0) := by
        rw [show (0 : ℝ) = ((0 : ℚ) : ℝ) by norm_num, Rat.cast_lt]
      by_cases h2 : r - ((calculatePriceAndDerivative r C FV n).1 - p)
          / (calculatePriceAndDerivative r C FV n).2 < 0
      · rw [if_pos h2, if_pos (hneg.mpr h2),
          show ((1 : ℝ) / 10000) = (((1 / 10000 : ℚ)) : ℝ) by norm_num]
        exact ytmLoopR_cast C FV p n fuel _
      · rw [if_neg h2, if_neg (fun h => h2 (hneg.mp h))]
        exact ytmLoopR_cast C FV p n fuel _

/-- On integer period counts the real model and the rational embedding of
calculateYTM agree. -/
lemma calculateYTMR_integer_periods (input : BondInput) (m : ℕ)
    (hm : totalPeriodsQ input = (m : ℚ)) :
    calculateYTMR input = ((calculateYTM input : ℚ) : ℝ) := by
  have hnp : numPeriods input = m := by rw [numPeriods, hm, Nat.floor_natCast]
  unfold calculateYTMR calculateYTM
  rw [hnp, hm, Rat.cast_natCast, ytmLoopR_cast]
  push_cast
  ring

/-! ## Helper lemmas -/

lemma round_eq_of (x : ℚ) (z : ℤ) (h1 : (z : ℚ) ≤ x + 1 / 2) (h2 : x + 1 / 2 < z + 1) :
    round x = z := by
  rw [round_eq, Int.floor_eq_iff]
  exact ⟨h1, h2⟩

lemma round2_eq (x : ℚ) (z : ℤ) (h1 : (z : ℚ) ≤ x * 100 + 1 / 2)
    (h2 : x * 100 + 1 / 2 < z + 1) : round2 x = (z : ℚ) / 100 := by
  rw [round2, round_eq_of (x * 100) z h1 h2]

lemma not_abs_lt_of_le_neg {x t : ℚ} (h : x ≤ -t) : ¬ |x| < t := by
  intro habs
  rw [abs_lt] at habs
  linarith [habs.1]

/-- Closed form of the schedule loop: entry i (0-based) has period
startPeriod + i and cumulative interest acc + (i+1)*C rounded. -/
lemma scheduleFrom_eq_map (C FV : ℚ) (tp : ℚ) :
    ∀ fuel startPeriod acc,
      scheduleFrom C FV tp startPeriod acc fuel =
        (List.range fuel).map (fun i =>
          { period := startPeriod + i
            couponPayment := round2 C
            cumulativeInterest := round2 (acc + ((i : ℚ) + 1) * C)
            remainingPrincipal :=
              if ((startPeriod + i : ℕ) : ℚ) = tp then 0 else FV })
  | 0, startPeriod, acc => by simp [scheduleFrom]
  | fuel + 1, startPeriod, acc => by
    rw [scheduleFrom, scheduleFrom_eq_map C FV tp fuel (startPeriod + 1) (acc + C),
      List.range_succ_eq_map, List.map_cons, List.map_map]
    congr 1
    · simp only [CashFlowEntry.mk.injEq, Nat.add_zero, Nat.cast_zero]
      norm_num
    · refine List.map_congr_left fun i _ => ?_
      simp only [Function.comp_apply, Nat.succ_eq_add_one]
      have hp : startPeriod + 1 + i = startPeriod + (i + 1) := by omega
      rw [hp]
      simp only [CashFlowEntry.mk.injEq, true_and, and_true]
      congr 1
      push_cast
      ring

lemma generateCashFlowSchedule_eq (input : BondInput) :
    generateCashFlowSchedule input =
      (List.range (numPeriods input)).map (fun i =>
        { period := i + 1
          couponPayment := round2 (couponPerPeriod input)
          cumulativeInterest := round2 (((i : ℚ) + 1) * couponPerPeriod input)
          remainingPrincipal :=
            if ((i + 1 : ℕ) : ℚ) = totalPeriodsQ input then 0
            else input.faceValue }) := by
  rw [generateCashFlowSchedule, scheduleFrom_eq_map]
  refine List.map_congr_left fun i _ => ?_
  have h : 1 + i = i + 1 := Nat.add_comm 1 i
  rw [h, zero_add]

lemma schedule_length (input : BondInput) :
    (generateCashFlowSchedule input).length = numPeriods input := by
  rw [generateCashFlowSchedule_eq, List.length_map, List.length_range]

/-- A bond paying coupon r*FV per period and FV at maturity is priced exactly
at par by the rate r (geometric telescoping). -/
lemma par_price (FV r : ℚ) (hx : (1 : ℚ) + r ≠ 0) :
    ∀ n : ℕ, (∑ t ∈ Finset.range n, r * FV / (1 + r) ^ (t + 1)) + FV / (1 + r) ^ n = FV
  | 0 => by simp
  | n + 1 => by
    have key : r * FV / (1 + r) ^ (n + 1) + FV / (1 + r) ^ (n + 1) = FV / (1 + r) ^ n := by
      rw [div_add_div_same, pow_succ, show r * FV + FV = FV * (1 + r) by ring]
      exact mul_div_mul_right FV ((1 + r) ^ n) hx
    calc (∑ t ∈ Finset.range (n + 1), r * FV / (1 + r) ^ (t + 1)) + FV / (1 + r) ^ (n + 1)
        = ((∑ t ∈ Finset.range n, r * FV / (1 + r) ^ (t + 1))
            + (r * FV / (1 + r) ^ (n + 1) + FV / (1 + r) ^ (n + 1))) := by
          rw [Finset.sum_range_succ]; ring
      _ = (∑ t ∈ Finset.range n, r * FV / (1 + r) ^ (t + 1)) + FV / (1 + r) ^ n := by
          rw [key]
      _ = FV := par_price FV r hx n

/-- The derivative returned by calculatePriceAndDerivative is strictly
negative at every nonnegative rate, for at least one period, nonnegative
coupon and positive face value. -/
lemma derivative_neg (r C FV : ℚ) (n : ℕ) (hr : 0 ≤ r) (hC : 0 ≤ C) (hFV : 0 < FV)
    (hn : 1 ≤ n) : (calculatePriceAndDerivative r C FV n).2 < 0 := by
  unfold calculatePriceAndDerivative
  dsimp only
  have hx : (0 : ℚ) < 1 + r := by linarith
  have hsum : 0 ≤ ∑ t ∈ Finset.range n,
      ((t + 1 : ℚ) * C) / ((1 + r) ^ (t + 1) * (1 + r)) := by
    refine Finset.sum_nonneg fun i _ => ?_
    have hi : (0 : ℚ) ≤ (i + 1 : ℚ) := by positivity
    positivity
  have hnq : (0 : ℚ) < (n : ℚ) := by exact_mod_cast hn
  have htail : 0 < (n : ℚ) * FV / ((1 + r) ^ n * (1 + r)) := by positivity
  linarith

/-- Every guess produced by the Newton loop from a nonnegative start stays
nonnegative: the clamp resets negative updates to 0.0001. -/
lemma ytmLoop_nonneg (C FV p : ℚ) (n : ℕ) :
    ∀ fuel r, 0 ≤ r → 0 ≤ ytmLoop C FV p n fuel r
  | 0, r, hr => hr
  | fuel + 1, r, hr => by
    rw [ytmLoop]
    dsimp only
    split
    · exact hr
    · refine ytmLoop_nonneg C FV p n fuel _ ?_
      split
      · norm_num
      · next h => exact le_of_not_lt h

/-- The price computed by calculatePriceAndDerivative is strictly decreasing
in the rate (n at least 1, nonnegative coupon, positive face value). -/
lemma price_strictAnti (C FV : ℚ) (n : ℕ) (hC : 0 ≤ C) (hFV : 0 < FV) (hn : 1 ≤ n)
    {a b : ℚ} (ha : 0 ≤ a) (hab : a < b) :
    (calculatePriceAndDerivative b C FV n).1 < (calculatePriceAndDerivative a C FV n).1 := by
  unfold calculatePriceAndDerivative
  dsimp only
  have h1a : (0 : ℚ) < 1 + a := by linarith
  have h1b : (0 : ℚ) < 1 + b := by linarith
  have hsum : (∑ t ∈ Finset.range n, C / (1 + b) ^ (t + 1))
      ≤ ∑ t ∈ Finset.range n, C / (1 + a) ^ (t + 1) := by
    refine Finset.sum_le_sum fun i _ => ?_
    have hpow : (1 + a) ^ (i + 1) ≤ (1 + b) ^ (i + 1) :=
      pow_le_pow_left₀ (le_of_lt h1a) (by linarith) (i + 1)
    exact div_le_div_of_nonneg_left hC (pow_pos h1a (i + 1)) hpow
  have hpows : (1 + a) ^ n < (1 + b) ^ n :=
    pow_lt_pow_left₀ (by linarith) (le_of_lt h1a) (by omega)
  have htail : FV / (1 + b) ^ n < FV / (1 + a) ^ n :=
    div_lt_div_of_pos_left hFV (pow_pos h1a n) hpows
  linarith

/-- If at the clamp value 0.0001 the computed price still undershoots the
market price by at least the tolerance and the Newton update is negative,
the loop is stuck at 0.0001 forever. -/
lemma ytmLoop_stuck (C FV p : ℚ) (n : ℕ)
    (h1 : (calculatePriceAndDerivative (1 / 10000) C FV n).1 - p ≤ -(1 / 10 ^ 10))
    (h2 : 1 / 10000 - ((calculatePriceAndDerivative (1 / 10000) C FV n).1 - p)
        / (calculatePriceAndDerivative (1 / 10000) C FV n).2 < 0) :
    ∀ fuel, ytmLoop C FV p n fuel (1 / 10000) = 1 / 10000
  | 0 => rfl
  | fuel + 1 => by
    rw [ytmLoop]
    dsimp only
    rw [if_neg (not_abs_lt_of_le_neg h1), if_pos h2]
    exact ytmLoop_stuck C FV p n h1 h2 fuel

/-- One non-converged Newton step whose update goes negative clamps to 0.0001. -/
lemma ytmLoop_step_clamp (C FV p : ℚ) (n fuel : ℕ) (r : ℚ)
    (h1 : (calculatePriceAndDerivative r C FV n).1 - p ≤ -(1 / 10 ^ 10))
    (h2 : r - ((calculatePriceAndDerivative r C FV n).1 - p)
        / (calculatePriceAndDerivative r C FV n).2 < 0) :
    ytmLoop C FV p n (fuel + 1) r = ytmLoop C FV p n fuel (1 / 10000) := by
  rw [ytmLoop]
  dsimp only
  rw [if_neg (not_abs_lt_of_le_neg h1), if_pos h2]

/-! ## Concrete inputs used by witnesses and counterexamples -/

/-- Par bond scenario from the spec: 1000 face, 5 percent coupon, priced at
par, 5 years, annual coupons. -/
def parInput : BondInput := ⟨1000, 5, 1000, 5, 1⟩

/-- A valid input with fractional yearsToMaturity, 1.5 years. -/
def fracInput : BondInput := ⟨1000, 5, 950, 3 / 2, 1⟩

/-- A valid input whose per-period coupon is 0.125, exposing the rounding
order of the schedule. -/
def centInput : BondInput := ⟨1000, 1 / 80, 1000, 2, 1⟩

/-- Zero-coupon bond below par. -/
def zcInput : BondInput := ⟨1000, 0, 800, 1, 1⟩

/-- A par-priced bond with fractional maturity 1.5 years whose tiny face
value makes the Newton tolerance fire on the second iteration; 1 + the
initial guess is a perfect square, so the first iteration is exactly
rational. -/
def fracPar : BondInput := ⟨1 / 10 ^ 8, 21, 1 / 10 ^ 8, 3 / 2, 1⟩

/-- One-period bond whose market price exceeds all undiscounted cash flows. -/
def highPriceA : BondInput := ⟨100, 100, 1000, 1, 1⟩

/-- Same bond at an even higher market price. -/
def highPriceB : BondInput := ⟨100, 100, 2000, 1, 1⟩

lemma parInput_valid : Valid parInput := by norm_num [Valid, parInput]

lemma parInput_periods : totalPeriodsQ parInput = ((5 : ℕ) : ℚ) := by
  norm_num [totalPeriodsQ, parInput]

/-! ## Claims -/

/-- C1: for every valid BondInput whose period count
yearsToMaturity*couponFrequency is the integer n, calculateYTM follows
exactly the claimed algorithm: initial guess
(faceValue*annualCouponRate/100/marketPrice)/couponFrequency, at most 100
Newton iterations over P and its derivative with tolerance 1e-10 and the
0.0001 reset of negative guesses, returning the final guess times
couponFrequency (specYTM restates that algorithm word for word). -/
theorem calculateYTM_refines_spec (input : BondInput) (hv : Valid input)
    (m : ℕ) (hm : totalPeriodsQ input = (m : ℚ)) :
    calculateYTM input =
      specYTM input.faceValue input.annualCouponRate input.marketPrice
        input.couponFrequency m := by
  have hnp : numPeriods input = m := by rw [numPeriods, hm, Nat.floor_natCast]
  unfold calculateYTM specYTM
  rw [hnp, specNewton_eq]
  have hC : input.faceValue * (input.annualCouponRate / 100) / input.couponFrequency
      = couponPerPeriod input := rfl
  have hr0 : input.faceValue * input.annualCouponRate / 100 / input.marketPrice
        / input.couponFrequency
      = calculateCurrentYield input / input.couponFrequency := by
    unfold calculateCurrentYield
    ring
  rw [hC, hr0]

/-- Witness for C1 at the par-bond input. -/
theorem calculateYTM_refines_spec_witness :
    Valid parInput ∧ totalPeriodsQ parInput = ((5 : ℕ) : ℚ) ∧
    calculateYTM parInput = specYTM 1000 5 1000 1 5 := by
  refine ⟨parInput_valid, parInput_periods, ?_⟩
  have h := calculateYTM_refines_spec parInput parInput_valid 5 parInput_periods
  simpa [parInput] using h

/-- C2 (amended): totalPeriods is yearsToMaturity*couponFrequency with no
rounding; the schedule returned by the engine has ⌊totalPeriods⌋ entries,
which equals totalPeriods exactly when that product is an integer. -/
theorem schedule_length_eq_floor (input : BondInput) (hv : Valid input) :
    (calculateBond input).cashFlowSchedule.length = ⌊totalPeriodsQ input⌋₊ ∧
    (∀ m : ℕ, totalPeriodsQ input = (m : ℚ) →
      ((calculateBond input).cashFlowSchedule.length : ℚ) = totalPeriodsQ input) := by
  constructor
  · exact schedule_length input
  · intro m hm
    have h1 : (calculateBond input).cashFlowSchedule.length = numPeriods input :=
      schedule_length input
    rw [h1, numPeriods, hm, Nat.floor_natCast]

/-- Witness for the amended C2 at the par-bond input. -/
theorem schedule_length_eq_floor_witness :
    Valid parInput ∧ (calculateBond parInput).cashFlowSchedule.length = 5 := by
  refine ⟨parInput_valid, ?_⟩
  rw [(schedule_length_eq_floor parInput parInput_valid).1]
  norm_num [numPeriods, totalPeriodsQ, parInput]

/-- Counterexample to C2 as stated: at 1.5 years with annual coupons the
schedule has 1 entry while round(totalPeriods) = 2. -/
theorem schedule_length_round_counterexample :
    Valid fracInput ∧
    round (totalPeriodsQ fracInput) = 2 ∧
    (calculateBond fracInput).cashFlowSchedule.length = 1 ∧
    ((calculateBond fracInput).cashFlowSchedule.length : ℤ)
      ≠ round (totalPeriodsQ fracInput) := by
  have hq : totalPeriodsQ fracInput = 3 / 2 := by norm_num [totalPeriodsQ, fracInput]
  have hr : round ((3 : ℚ) / 2) = 2 := round_eq_of (3 / 2) 2 (by norm_num) (by norm_num)
  have hlen : (calculateBond fracInput).cashFlowSchedule.length = 1 := by
    have h1 : (calculateBond fracInput).cashFlowSchedule.length = numPeriods fracInput :=
      schedule_length fracInput
    rw [h1, numPeriods, hq, Nat.floor_eq_iff (by norm_num)]
    norm_num
  refine ⟨by norm_num [Valid, fracInput], by rw [hq]; exact hr, hlen, ?_⟩
  rw [hlen, hq, hr]
  norm_num

/-- C3 (amended): whenever the period count yearsToMaturity*couponFrequency
is an integer, the last schedule entry has remainingPrincipal 0 and every
other entry has remainingPrincipal faceValue.  (For fractional period counts
the source comparison `period === totalPeriods` never fires and every entry,
including the last, keeps faceValue: see the counterexample.) -/
theorem remainingPrincipal_profile (input : BondInput) (hv : Valid input)
    (m : ℕ) (hm : totalPeriodsQ input = (m : ℚ))
    (i : ℕ) (h : i < (generateCashFlowSchedule input).length) :
    ((generateCashFlowSchedule input).get ⟨i, h⟩).remainingPrincipal
      = if i = (generateCashFlowSchedule input).length - 1 then 0
        else input.faceValue := by
  have hlen := schedule_length input
  have hb : i < numPeriods input := hlen ▸ h
  have hnp : numPeriods input = m := by rw [numPeriods, hm, Nat.floor_natCast]
  have hcond : (((i + 1 : ℕ) : ℚ) = totalPeriodsQ input)
      ↔ (i = (generateCashFlowSchedule input).length - 1) := by
    rw [hm, Nat.cast_inj, hlen, hnp]
    rw [hnp] at hb
    omega
  simp only [← hcond]
  simp only [List.get_eq_getElem, generateCashFlowSchedule_eq, List.getElem_map,
    List.getElem_range]

/-- Witness for the amended C3: the fifth (last) entry of the par-bond
schedule has zero remaining principal. -/
theorem remainingPrincipal_profile_witness :
    Valid parInput ∧
    ((generateCashFlowSchedule parInput).getD 4 ⟨0, 0, 0, 0⟩).remainingPrincipal
      = 0 := by
  have hlen5 : (generateCashFlowSchedule parInput).length = 5 := by
    rw [schedule_length]
    norm_num [numPeriods, totalPeriodsQ, parInput]
  have h4 : (4 : ℕ) < (generateCashFlowSchedule parInput).length := by
    rw [hlen5]
    norm_num
  have hc : (4 : ℕ) = (generateCashFlowSchedule parInput).length - 1 := by
    rw [hlen5]
  refine ⟨parInput_valid, ?_⟩
  rw [List.getD_eq_get _ _ h4,
    remainingPrincipal_profile parInput parInput_valid 5 parInput_periods 4 h4,
    if_pos hc]

/-- Counterexample to C3 as stated: at 1.5 years with annual coupons the
schedule has exactly one entry — its last entry — whose remainingPrincipal is
the full face value 1000, not 0, because the integer period 1 never equals
the raw totalPeriods value 1.5. -/
theorem remainingPrincipal_last_counterexample :
    Valid fracInput ∧
    (generateCashFlowSchedule fracInput).length = 1 ∧
    ((generateCashFlowSchedule fracInput).getD 0 ⟨0, 0, 0, 0⟩).remainingPrincipal
      = 1000 ∧ (1000 : ℚ) ≠ 0 := by
  have hq : totalPeriodsQ fracInput = 3 / 2 := by norm_num [totalPeriodsQ, fracInput]
  have hlen : (generateCashFlowSchedule fracInput).length = 1 := by
    rw [schedule_length, numPeriods, hq, Nat.floor_eq_iff (by norm_num)]
    norm_num
  have h0 : (0 : ℕ) < (generateCashFlowSchedule fracInput).length := by
    rw [hlen]
    norm_num
  refine ⟨by norm_num [Valid, fracInput], hlen, ?_, by norm_num⟩
  rw [List.getD_eq_get _ _ h0]
  simp only [List.get_eq_getElem, generateCashFlowSchedule_eq, List.getElem_map,
    List.getElem_range, hq]
  norm_num [fracInput]

/-- C4 (amended): every entry couponPayment is couponPerPeriod rounded to 2
decimals, but cumulativeInterest is the UNROUNDED running sum k*couponPerPeriod
rounded once at generation time — rounding happens after accumulation, not
before. -/
theorem schedule_rounding_amended (input : BondInput) (hv : Valid input) :
    (generateCashFlowSchedule input).map
        (fun e => (e.couponPayment, e.cumulativeInterest))
      = (List.range (numPeriods input)).map
          (fun (i : ℕ) => (round2 (couponPerPeriod input),
            round2 (((i : ℚ) + 1) * couponPerPeriod input))) := by
  rw [generateCashFlowSchedule_eq, List.map_map]
  rfl

/-- Witness for the amended C4 at the quarter-cent coupon input. -/
theorem schedule_rounding_amended_witness :
    Valid centInput ∧
    (generateCashFlowSchedule centInput).map
        (fun e => (e.couponPayment, e.cumulativeInterest))
      = [(13 / 100, 13 / 100), (13 / 100, 25 / 100)] := by
  have hv : Valid centInput := by norm_num [Valid, centInput]
  have hC : couponPerPeriod centInput = 1 / 8 := by
    norm_num [couponPerPeriod, centInput]
  have hn : numPeriods centInput = 2 := by
    norm_num [numPeriods, totalPeriodsQ, centInput]
  have hr1 : round2 ((1 : ℚ) / 8) = 13 / 100 := by
    rw [round2_eq (1 / 8) 13 (by norm_num) (by norm_num)]
    norm_num
  have hr2 : round2 ((1 : ℚ) / 4) = 25 / 100 := by
    rw [round2_eq (1 / 4) 25 (by norm_num) (by norm_num)]
    norm_num
  refine ⟨hv, ?_⟩
  rw [schedule_rounding_amended centInput hv]
  simp only [hC, hn]
  rw [show List.range 2 = [0, 1] from rfl]
  simp only [List.map_cons, List.map_nil, Nat.cast_zero, Nat.cast_one]
  rw [show ((0 : ℚ) + 1) * (1 / 8) = 1 / 8 by norm_num,
    show ((1 : ℚ) + 1) * (1 / 8) = 1 / 4 by norm_num, hr1, hr2]

/-- Counterexample to C4 as stated: with couponPerPeriod = 0.125 the second
entry records cumulativeInterest 0.25 (round of the exact sum 0.25), while
accumulating the rounded coupons 0.13 + 0.13 and rounding would give 0.26. -/
theorem schedule_rounding_counterexample :
    Valid centInput ∧
    couponPerPeriod centInput = 1 / 8 ∧
    (generateCashFlowSchedule centInput).map (fun e => e.cumulativeInterest)
      = [13 / 100, 25 / 100] ∧
    round2 (round2 ((1 : ℚ) / 8) + round2 ((1 : ℚ) / 8)) = 26 / 100 ∧
    (25 : ℚ) / 100 ≠ 26 / 100 := by
  have hC : couponPerPeriod centInput = 1 / 8 := by
    norm_num [couponPerPeriod, centInput]
  have hn : numPeriods centInput = 2 := by
    norm_num [numPeriods, totalPeriodsQ, centInput]
  have hr1 : round2 ((1 : ℚ) / 8) = 13 / 100 := by
    rw [round2_eq (1 / 8) 13 (by norm_num) (by norm_num)]
    norm_num
  have hr2 : round2 ((1 : ℚ) / 4) = 25 / 100 := by
    rw [round2_eq (1 / 4) 25 (by norm_num) (by norm_num)]
    norm_num
  refine ⟨by norm_num [Valid, centInput], hC, ?_, ?_, by norm_num⟩
  · simp only [generateCashFlowSchedule_eq, hC, hn, List.map_map]
    rw [show List.range 2 = [0, 1] from rfl]
    simp only [List.map_cons, List.map_nil, Function.comp_apply, Nat.cast_zero,
      Nat.cast_one]
    rw [show ((0 : ℚ) + 1) * (1 / 8) = 1 / 8 by norm_num,
      show ((1 : ℚ) + 1) * (1 / 8) = 1 / 4 by norm_num, hr1, hr2]
  · rw [hr1, show (13 : ℚ) / 100 + 13 / 100 = 26 / 100 by norm_num,
      round2_eq (26 / 100) 26 (by norm_num) (by norm_num)]
    norm_num

/-- C5 (amended): for a par bond (marketPrice = faceValue) whose period
count yearsToMaturity*couponFrequency is an integer, the initial guess
prices the bond exactly, so the solver converges on its first iteration and
returns exactly the coupon rate annualCouponRate/100.  At fractional period
counts the fractional-exponent face-value discounting breaks the par
identity and the solver returns a different value: see the
counterexample. -/
theorem par_bond_ytm (input : BondInput) (hv : Valid input)
    (hpar : input.marketPrice = input.faceValue)
    (m : ℕ) (hm : totalPeriodsQ input = (m : ℚ)) :
    calculateYTM input = input.annualCouponRate / 100 := by
  obtain ⟨hfv, hmp, hym, hym2, hfreq, hcr0, hcr1⟩ := hv
  have hfreqpos : 0 < input.couponFrequency := by
    rcases hfreq with h | h <;> rw [h] <;> norm_num
  have hfv' : input.faceValue ≠ 0 := ne_of_gt hfv
  have hfq' : input.couponFrequency ≠ 0 := ne_of_gt hfreqpos
  set r0 : ℚ := input.annualCouponRate / 100 / input.couponFrequency with hr0def
  have hr0nonneg : 0 ≤ r0 := by
    rw [hr0def]
    exact div_nonneg (div_nonneg hcr0 (by norm_num)) (le_of_lt hfreqpos)
  have hx : (1 : ℚ) + r0 ≠ 0 := by
    have : (0 : ℚ) < 1 + r0 := by linarith
    exact ne_of_gt this
  have hinit : calculateCurrentYield input / input.couponFrequency = r0 := by
    rw [hr0def]
    unfold calculateCurrentYield
    rw [hpar]
    field_simp
    ring
  have hC : couponPerPeriod input = r0 * input.faceValue := by
    rw [hr0def]
    unfold couponPerPeriod
    field_simp
    ring
  have hprice : (calculatePriceAndDerivative r0 (couponPerPeriod input)
      input.faceValue (numPeriods input)).1 = input.faceValue := by
    unfold calculatePriceAndDerivative
    dsimp only
    rw [hC]
    exact par_price input.faceValue r0 hx (numPeriods input)
  have hcond : |(calculatePriceAndDerivative r0 (couponPerPeriod input)
      input.faceValue (numPeriods input)).1 - input.marketPrice| < 1 / 10 ^ 10 := by
    rw [hprice, hpar, sub_self, abs_zero]
    norm_num
  unfold calculateYTM
  rw [hinit, show (100 : ℕ) = 99 + 1 from rfl, ytmLoop]
  dsimp only
  rw [if_pos hcond, hr0def]
  field_simp
  ring

/-- Witness for the amended C5: the spec's concrete par-bond scenario yields
exactly 0.05. -/
theorem par_bond_ytm_witness :
    Valid parInput ∧ parInput.marketPrice = parInput.faceValue ∧
    totalPeriodsQ parInput = ((5 : ℕ) : ℚ) ∧
    calculateYTM parInput = 1 / 20 := by
  refine ⟨parInput_valid, rfl, parInput_periods, ?_⟩
  rw [par_bond_ytm parInput parInput_valid rfl 5 parInput_periods]
  norm_num [parInput]

/-- Counterexample to C5 as stated: the valid par-priced input
faceValue = marketPrice = 1e-8, coupon 21 percent, 1.5 years, annual coupons.
In the real model of the source (fractional Math.pow exponent) the initial
guess 0.21 does not price the bond at par — the face value is discounted by
(1.21)^1.5 — so the solver takes one Newton step to 24251/173100 ≈ 0.1401,
converges there, and returns a YTM that differs from the coupon rate 0.21 by
121/1731 ≈ 0.0699, vastly more than the 1e-10 tolerance. -/
theorem par_bond_ytm_counterexample :
    Valid fracPar ∧
    fracPar.marketPrice = fracPar.faceValue ∧
    calculateYTMR fracPar = 24251 / 173100 ∧
    |calculateYTMR fracPar - ((fracPar.annualCouponRate / 100 : ℚ) : ℝ)|
      = 121 / 1731 ∧
    (1 / 10 ^ 10 : ℝ) < 121 / 1731 := by
  have hC : couponPerPeriod fracPar = 21 / 10 ^ 10 := by
    norm_num [couponPerPeriod, fracPar]
  have hcy : calculateCurrentYield fracPar / fracPar.couponFrequency = 21 / 100 := by
    norm_num [calculateCurrentYield, fracPar]
  have htp : totalPeriodsQ fracPar = 3 / 2 := by norm_num [totalPeriodsQ, fracPar]
  have hn : numPeriods fracPar = 1 := by
    rw [numPeriods, htp, Nat.floor_eq_iff (by norm_num)]
    norm_num
  have hpow0 : ((1 : ℝ) + 21 / 100) ^ ((3 : ℝ) / 2) = 1331 / 1000 := by
    rw [show ((1 : ℝ) + 21 / 100) = (11 / 10) ^ (2 : ℕ) by norm_num,
      ← Real.rpow_natCast ((11 : ℝ) / 10) 2, ← Real.rpow_mul (by norm_num)]
    rw [show ((2 : ℕ) : ℝ) * (3 / 2) = ((3 : ℕ) : ℝ) by norm_num, Real.rpow_natCast]
    norm_num
  have hpd0 : priceAndDerivativeR (21 / 100) (21 / 10 ^ 10) (1 / 10 ^ 8) (3 / 2) 1
      = (1231 / (1331 * 10 ^ 8), -(173100 / (161051 * 10 ^ 8))) := by
    unfold priceAndDerivativeR
    rw [Finset.sum_range_one, Finset.sum_range_one]
    simp only [hpow0]
    rw [Prod.mk.injEq]
    constructor
    · norm_num
    · norm_num
  have hx1 : (1 : ℝ) + 24251 / 173100 = 197351 / 173100 := by norm_num
  have hs_lo : (10677 / 10000 : ℝ) ≤ Real.sqrt (197351 / 173100) := by
    rw [show (10677 / 10000 : ℝ) = Real.sqrt ((10677 / 10000) ^ 2) from
      (Real.sqrt_sq (by norm_num)).symm]
    exact Real.sqrt_le_sqrt (by norm_num)
  have hs_hi : Real.sqrt (197351 / 173100) ≤ (10678 / 10000 : ℝ) := by
    rw [show (10678 / 10000 : ℝ) = Real.sqrt ((10678 / 10000) ^ 2) from
      (Real.sqrt_sq (by norm_num)).symm]
    exact Real.sqrt_le_sqrt (by norm_num)
  have ht_eq : ((197351 / 173100 : ℝ)) ^ ((3 : ℝ) / 2)
      = (197351 / 173100) * Real.sqrt (197351 / 173100) := by
    rw [show ((3 : ℝ) / 2) = 1 + 1 / 2 by norm_num,
      Real.rpow_add (by norm_num : (0 : ℝ) < 197351 / 173100), Real.rpow_one,
      ← Real.sqrt_eq_rpow]
  have ht_lo : (197351 / 173100 : ℝ) * (10677 / 10000)
      ≤ (197351 / 173100 : ℝ) ^ ((3 : ℝ) / 2) := by
    rw [ht_eq]
    exact mul_le_mul_of_nonneg_left hs_lo (by norm_num)
  have ht_hi : (197351 / 173100 : ℝ) ^ ((3 : ℝ) / 2)
      ≤ (197351 / 173100 : ℝ) * (10678 / 10000) := by
    rw [ht_eq]
    exact mul_le_mul_of_nonneg_left hs_hi (by norm_num)
  have ht_pos : (0 : ℝ) < (197351 / 173100 : ℝ) ^ ((3 : ℝ) / 2) :=
    lt_of_lt_of_le (by norm_num) ht_lo
  have hp1 : (priceAndDerivativeR (24251 / 173100) (21 / 10 ^ 10) (1 / 10 ^ 8)
        (3 / 2) 1).1
      = (21 / 10 ^ 10 : ℝ) / (197351 / 173100)
        + (1 / 10 ^ 8) / ((197351 / 173100 : ℝ) ^ ((3 : ℝ) / 2)) := by
    unfold priceAndDerivativeR
    dsimp only
    rw [Finset.sum_range_one]
    simp only [hx1]
    norm_num
  have hc1 : |(priceAndDerivativeR (24251 / 173100) (21 / 10 ^ 10) (1 / 10 ^ 8)
        (3 / 2) 1).1 - 1 / 10 ^ 8| < 1 / 10 ^ 10 := by
    rw [hp1]
    have hub : (1 / 10 ^ 8 : ℝ) / ((197351 / 173100 : ℝ) ^ ((3 : ℝ) / 2))
        ≤ (1 / 10 ^ 8) / ((197351 / 173100) * (10677 / 10000)) :=
      div_le_div_of_nonneg_left (by norm_num) (by norm_num) ht_lo
    have hlb : (1 / 10 ^ 8 : ℝ) / ((197351 / 173100) * (10678 / 10000))
        ≤ (1 / 10 ^ 8) / ((197351 / 173100 : ℝ) ^ ((3 : ℝ) / 2)) :=
      div_le_div_of_nonneg_left (by norm_num) ht_pos ht_hi
    have hub2 : (21 / 10 ^ 10 : ℝ) / (197351 / 173100)
        + (1 / 10 ^ 8) / ((197351 / 173100) * (10677 / 10000)) - 1 / 10 ^ 8
        < 1 / 10 ^ 10 := by norm_num
    have hlb2 : (0 : ℝ) < (21 / 10 ^ 10) / (197351 / 173100)
        + (1 / 10 ^ 8) / ((197351 / 173100) * (10678 / 10000)) - 1 / 10 ^ 8 := by
      norm_num
    rw [abs_lt]
    constructor
    · linarith
    · linarith
  have hmain : calculateYTMR fracPar = 24251 / 173100 := by
    unfold calculateYTMR
    rw [hn,
      show ((couponPerPeriod fracPar : ℚ) : ℝ) = 21 / 10 ^ 10 by rw [hC]; norm_num,
      show ((fracPar.faceValue : ℚ) : ℝ) = 1 / 10 ^ 8 by norm_num [fracPar],
      show ((fracPar.marketPrice : ℚ) : ℝ) = 1 / 10 ^ 8 by norm_num [fracPar],
      show ((totalPeriodsQ fracPar : ℚ) : ℝ) = 3 / 2 by rw [htp]; norm_num,
      show ((calculateCurrentYield fracPar / fracPar.couponFrequency : ℚ) : ℝ)
          = 21 / 100 by rw [hcy]; norm_num,
      show ((fracPar.couponFrequency : ℚ) : ℝ) = 1 by norm_num [fracPar], mul_one]
    rw [show (100 : ℕ) = 99 + 1 from rfl, ytmLoopR]
    dsimp only
    rw [hpd0]
    dsimp only
    have hc0 : ¬ (|(1231 / (1331 * 10 ^ 8) : ℝ) - 1 / 10 ^ 8| < 1 / 10 ^ 10) := by
      rw [show (1231 / (1331 * 10 ^ 8) : ℝ) - 1 / 10 ^ 8 = -(1 / 1331000000)
          by norm_num,
        abs_neg, abs_of_pos (by norm_num)]
      norm_num
    rw [if_neg hc0]
    have hnext0 : (21 / 100 : ℝ) - (1231 / (1331 * 10 ^ 8) - 1 / 10 ^ 8)
        / (-(173100 / (161051 * 10 ^ 8))) = 24251 / 173100 := by
      norm_num
    simp only [hnext0]
    rw [if_neg (by norm_num : ¬ ((24251 / 173100 : ℝ) < 0))]
    rw [show (99 : ℕ) = 98 + 1 from rfl, ytmLoopR]
    dsimp only
    rw [if_pos hc1]
  refine ⟨by norm_num [Valid, fracPar], rfl, hmain, ?_, by norm_num⟩
  rw [hmain,
    show ((fracPar.annualCouponRate / 100 : ℚ) : ℝ) = 21 / 100 by norm_num [fracPar],
    show (24251 / 173100 : ℝ) - 21 / 100 = -(121 / 1731) by norm_num,
    abs_neg, abs_of_pos (by norm_num)]

/-- C10: the cumulativeInterest of the k-th entry (0-based index i, period
i+1) is the exact unrounded running sum (i+1)*couponPerPeriod rounded once to
2 decimals; the accumulator carried between periods is never rounded. -/
theorem cumulativeInterest_exact (input : BondInput) (hv : Valid input)
    (i : ℕ) (h : i < (generateCashFlowSchedule input).length) :
    ((generateCashFlowSchedule input).get ⟨i, h⟩).cumulativeInterest
      = round2 (((i : ℚ) + 1) * couponPerPeriod input) := by
  simp only [List.get_eq_getElem, generateCashFlowSchedule_eq, List.getElem_map,
    List.getElem_range]

/-- Witness for C10: the second entry of the 0.125-coupon schedule records
round2(2 * 0.125) = 0.25, not the 0.26 a rounded accumulator would give. -/
theorem cumulativeInterest_exact_witness :
    Valid centInput ∧
    ((generateCashFlowSchedule centInput).getD 1 ⟨0, 0, 0, 0⟩).cumulativeInterest
      = 25 / 100 := by
  have hv : Valid centInput := by norm_num [Valid, centInput]
  have hlen2 : (generateCashFlowSchedule centInput).length = 2 := by
    rw [schedule_length]
    norm_num [numPeriods, totalPeriodsQ, centInput]
  have h1 : (1 : ℕ) < (generateCashFlowSchedule centInput).length := by
    rw [hlen2]
    norm_num
  refine ⟨hv, ?_⟩
  rw [List.getD_eq_get _ _ h1, cumulativeInterest_exact centInput hv 1 h1,
    show couponPerPeriod centInput = 1 / 8 by norm_num [couponPerPeriod, centInput],
    show ((1 : ℕ) : ℚ) + 1 = 2 by norm_num,
    show (2 : ℚ) * (1 / 8) = 1 / 4 by norm_num,
    round2_eq (1 / 4) 25 (by norm_num) (by norm_num)]
  norm_num

/-- C6 (amended): the pricing relation the solver inverts is strictly
antitone — if two nonnegative per-period rates price the bond at p1 < p2
then the rate achieving p2 is strictly smaller.  (The iteratively computed
yieldToMaturity itself is not strictly monotone in marketPrice: see the
counterexample, where every price above the undiscounted cash-flow total
yields the clamp floor 0.0001.) -/
theorem exact_rate_strictly_antitone (C FV : ℚ) (n : ℕ) (hC : 0 ≤ C)
    (hFV : 0 < FV) (hn : 1 ≤ n) (r1 r2 p1 p2 : ℚ) (h1 : 0 ≤ r1) (h2 : 0 ≤ r2)
    (e1 : (calculatePriceAndDerivative r1 C FV n).1 = p1)
    (e2 : (calculatePriceAndDerivative r2 C FV n).1 = p2)
    (hp : p1 < p2) : r2 < r1 := by
  by_contra hc
  push_neg at hc
  rcases eq_or_lt_of_le hc with he | hlt
  · rw [← he, e1] at e2
    rw [e2] at hp
    exact lt_irrefl p2 hp
  · have hmono := price_strictAnti C FV n hC hFV hn h1 hlt
    rw [e1, e2] at hmono
    exact absurd hp (not_lt.mpr (le_of_lt hmono))

/-- Witness for the amended C6: a one-period bond priced at 1050/11 by rate
1/10 and at 105 by rate 0. -/
theorem exact_rate_strictly_antitone_witness :
    (calculatePriceAndDerivative (1 / 10) 5 100 1).1 = 1050 / 11 ∧
    (calculatePriceAndDerivative 0 5 100 1).1 = 105 ∧
    (1050 : ℚ) / 11 < 105 ∧ (0 : ℚ) < 1 / 10 := by
  have e1 : (calculatePriceAndDerivative (1 / 10) 5 100 1).1 = 1050 / 11 := by
    norm_num [calculatePriceAndDerivative, Finset.sum_range_one]
  have e2 : (calculatePriceAndDerivative 0 5 100 1).1 = 105 := by
    norm_num [calculatePriceAndDerivative, Finset.sum_range_one]
  exact ⟨e1, e2, by norm_num,
    exact_rate_strictly_antitone 5 100 1 (by norm_num) (by norm_num) le_rfl
      (1 / 10) 0 (1050 / 11) 105 (by norm_num) le_rfl e1 e2 (by norm_num)⟩

/-- Counterexample to C6 as stated: two valid inputs differing only in
marketPrice (1000 < 2000, both above the total undiscounted cash flow 200)
produce the identical yieldToMaturity 0.0001 — the computed YTM is not
strictly decreasing in marketPrice. -/
theorem computed_ytm_not_strictly_antitone :
    Valid highPriceA ∧ Valid highPriceB ∧
    highPriceA.marketPrice < highPriceB.marketPrice ∧
    (calculateBond highPriceA).yieldToMaturity = 1 / 10000 ∧
    (calculateBond highPriceB).yieldToMaturity = 1 / 10000 ∧
    ¬ ((calculateBond highPriceB).yieldToMaturity
        < (calculateBond highPriceA).yieldToMaturity) := by
  have hA : calculateYTM highPriceA = 1 / 10000 := by
    have hC : couponPerPeriod highPriceA = 100 := by
      norm_num [couponPerPeriod, highPriceA]
    have hn : numPeriods highPriceA = 1 := by
      norm_num [numPeriods, totalPeriodsQ, highPriceA]
    have hr0 : calculateCurrentYield highPriceA / highPriceA.couponFrequency
        = 1 / 10 := by
      norm_num [calculateCurrentYield, highPriceA]
    unfold calculateYTM
    rw [hC, hn, hr0, show highPriceA.faceValue = 100 from rfl,
      show highPriceA.marketPrice = 1000 from rfl,
      show highPriceA.couponFrequency = 1 from rfl, mul_one,
      show (100 : ℕ) = 99 + 1 from rfl,
      ytmLoop_step_clamp 100 100 1000 1 99 (1 / 10)
        (by norm_num [calculatePriceAndDerivative, Finset.sum_range_one])
        (by norm_num [calculatePriceAndDerivative, Finset.sum_range_one])]
    exact ytmLoop_stuck 100 100 1000 1
      (by norm_num [calculatePriceAndDerivative, Finset.sum_range_one])
      (by norm_num [calculatePriceAndDerivative, Finset.sum_range_one]) 99
  have hB : calculateYTM highPriceB = 1 / 10000 := by
    have hC : couponPerPeriod highPriceB = 100 := by
      norm_num [couponPerPeriod, highPriceB]
    have hn : numPeriods highPriceB = 1 := by
      norm_num [numPeriods, totalPeriodsQ, highPriceB]
    have hr0 : calculateCurrentYield highPriceB / highPriceB.couponFrequency
        = 1 / 20 := by
      norm_num [calculateCurrentYield, highPriceB]
    unfold calculateYTM
    rw [hC, hn, hr0, show highPriceB.faceValue = 100 from rfl,
      show highPriceB.marketPrice = 2000 from rfl,
      show highPriceB.couponFrequency = 1 from rfl, mul_one,
      show (100 : ℕ) = 99 + 1 from rfl,
      ytmLoop_step_clamp 100 100 2000 1 99 (1 / 20)
        (by norm_num [calculatePriceAndDerivative, Finset.sum_range_one])
        (by norm_num [calculatePriceAndDerivative, Finset.sum_range_one])]
    exact ytmLoop_stuck 100 100 2000 1
      (by norm_num [calculatePriceAndDerivative, Finset.sum_range_one])
      (by norm_num [calculatePriceAndDerivative, Finset.sum_range_one]) 99
  refine ⟨by norm_num [Valid, highPriceA], by norm_num [Valid, highPriceB],
    by norm_num [highPriceA, highPriceB], hA, hB, ?_⟩
  have hA2 : (calculateBond highPriceA).yieldToMaturity = 1 / 10000 := hA
  have hB2 : (calculateBond highPriceB).yieldToMaturity = 1 / 10000 := hB
  rw [hA2, hB2]
  exact lt_irrefl _

/-- C7: the engine is total — at every nonnegative rate (in particular every
guess the solver visits, which all stay nonnegative) the derivative is
strictly negative, so the Newton division is well defined, including the
zero-coupon case, whose total interest is 0. -/
theorem solver_never_divides_by_zero (input : BondInput) (hv : Valid input)
    (m : ℕ) (hm : totalPeriodsQ input = (m : ℚ)) :
    (∀ r : ℚ, 0 ≤ r →
      (calculatePriceAndDerivative r (couponPerPeriod input) input.faceValue
        (numPeriods input)).2 < 0) ∧
    (∀ fuel r, 0 ≤ r →
      0 ≤ ytmLoop (couponPerPeriod input) input.faceValue input.marketPrice
        (numPeriods input) fuel r) ∧
    (input.annualCouponRate = 0 → calculateTotalInterest input = 0) := by
  obtain ⟨hfv, hmp, hym, hym2, hfreq, hcr0, hcr1⟩ := hv
  have hfreqpos : 0 < input.couponFrequency := by
    rcases hfreq with h | h <;> rw [h] <;> norm_num
  have hnp : 1 ≤ numPeriods input := by
    have hpos : 0 < totalPeriodsQ input := mul_pos hym hfreqpos
    have hm1 : 1 ≤ m := by
      by_contra hcon
      have hm0 : m = 0 := by omega
      rw [hm0] at hm
      rw [hm] at hpos
      norm_num at hpos
    rw [numPeriods, hm, Nat.floor_natCast]
    exact hm1
  have hCnn : 0 ≤ couponPerPeriod input :=
    div_nonneg (mul_nonneg (le_of_lt hfv) (div_nonneg hcr0 (by norm_num)))
      (le_of_lt hfreqpos)
  refine ⟨fun r hr => derivative_neg r _ _ _ hr hCnn hfv hnp,
    fun fuel r hr => ytmLoop_nonneg _ _ _ _ fuel r hr, fun h0 => ?_⟩
  unfold calculateTotalInterest
  rw [h0]
  norm_num

/-- Witness for C7 at the zero-coupon input. -/
theorem solver_never_divides_by_zero_witness :
    Valid zcInput ∧ totalPeriodsQ zcInput = ((1 : ℕ) : ℚ) ∧
    (calculatePriceAndDerivative 0 (couponPerPeriod zcInput) zcInput.faceValue
      (numPeriods zcInput)).2 < 0 ∧
    calculateTotalInterest zcInput = 0 := by
  have hv : Valid zcInput := by norm_num [Valid, zcInput]
  have hm : totalPeriodsQ zcInput = ((1 : ℕ) : ℚ) := by
    norm_num [totalPeriodsQ, zcInput]
  have h := solver_never_divides_by_zero zcInput hv 1 hm
  exact ⟨hv, hm, h.1 0 le_rfl, h.2.2 rfl⟩

/-- C8: premium/discount classification — par with amount 0 when
|marketPrice - faceValue| < 0.01, else premium with the positive difference
or discount with its absolute value; the amount is never negative and is 0
at par. -/
theorem premium_discount_classification (input : BondInput) (hv : Valid input) :
    calculatePremiumDiscount input =
      (if |input.marketPrice - input.faceValue| < 1 / 100 then (PremiumStatus.par, 0)
        else if 0 < input.marketPrice - input.faceValue
          then (PremiumStatus.premium, input.marketPrice - input.faceValue)
          else (PremiumStatus.discount, |input.marketPrice - input.faceValue|)) ∧
    0 ≤ (calculatePremiumDiscount input).2 ∧
    ((calculatePremiumDiscount input).1 = PremiumStatus.par →
      (calculatePremiumDiscount input).2 = 0) := by
  refine ⟨rfl, ?_, ?_⟩
  · unfold calculatePremiumDiscount
    dsimp only
    split
    · norm_num
    · split
      · next h2 => exact le_of_lt h2
      · exact abs_nonneg _
  · unfold calculatePremiumDiscount
    dsimp only
    split
    · intro _
      rfl
    · split
      · intro hpar
        simp at hpar
      · intro hpar
        simp at hpar

/-- Witness for C8 at the par-bond input. -/
theorem premium_discount_classification_witness :
    Valid parInput ∧ calculatePremiumDiscount parInput = (PremiumStatus.par, 0) := by
  refine ⟨parInput_valid, ?_⟩
  rw [(premium_discount_classification parInput parInput_valid).1]
  rw [if_pos]
  rw [show parInput.marketPrice - parInput.faceValue = 0 by norm_num [parInput]]
  norm_num

/-- C9: the annualized yieldToMaturity is never negative — the initial guess
is nonnegative and negative Newton updates are clamped to 0.0001 before the
loop can exit. -/
theorem ytm_nonneg (input : BondInput) (hv : Valid input) :
    0 ≤ calculateYTM input := by
  obtain ⟨hfv, hmp, hym, hym2, hfreq, hcr0, hcr1⟩ := hv
  have hfreqpos : 0 < input.couponFrequency := by
    rcases hfreq with h | h <;> rw [h] <;> norm_num
  have hr0 : 0 ≤ calculateCurrentYield input / input.couponFrequency := by
    unfold calculateCurrentYield
    exact div_nonneg
      (div_nonneg (mul_nonneg (le_of_lt hfv) (div_nonneg hcr0 (by norm_num)))
        (le_of_lt hmp))
      (le_of_lt hfreqpos)
  unfold calculateYTM
  exact mul_nonneg (ytmLoop_nonneg _ _ _ _ 100 _ hr0) (le_of_lt hfreqpos)

/-- Witness for C9 at the par-bond input. -/
theorem ytm_nonneg_witness : Valid parInput ∧ 0 ≤ calculateYTM parInput :=
  ⟨parInput_valid, ytm_nonneg parInput parInput_valid⟩
